import Mathlib

/-!
Verification of the DeepCitation deferred-citation extraction pipeline.

The definitions below are a shallow embedding of
`src/parsing/deferredCitationParser.ts` (and the pieces of the repository it
uses): the deferred-block splitter `parseDeferredCitationResponse`, the JSON
repair pass `repairJson`, the fragment normalizer `normalizeCitationData`, the
converter `deferredCitationToCitation`, and the extraction entry point
`getAllCitationsFromDeferredResponse`.  JavaScript strings are modelled as
`String`/`List Char`, `JSON.parse` as a total fuel-based parser over a `Json`
value type, JavaScript `Map`/object insertion as association lists with
replace-or-append semantics, and a thrown `TypeError` as `Option.none` on the
function that would raise it.  JSON numbers are modelled as integers (the
citation wire format only carries integers; a fraction or exponent is treated
as a parse failure).  Typed fields follow the declared TypeScript interface
`DeferredCitationData`: a JSON field of the wrong type is treated as absent.
-/

/-! ### Character and string helpers (JavaScript semantics) -/

/-- The backtick character (written via its code point). -/
def backtickChar : Char := Char.ofNat 96

/-- Opening curly brace (written via its code point). -/
def braceOpen : Char := Char.ofNat 123

/-- Closing curly brace (written via its code point). -/
def braceClose : Char := Char.ofNat 125

/-- JavaScript whitespace as used by `String.prototype.trim` and the regex
class `\s` (ASCII whitespace plus NBSP and BOM; the exotic Unicode space
code points are omitted from the model). -/
def isJsWs (c : Char) : Bool :=
  c = ' ' || c = '\t' || c = '\n' || c = '\r' ||
  c = Char.ofNat 11 || c = Char.ofNat 12 || c = Char.ofNat 160 || c = Char.ofNat 65279

/-- Trim JavaScript whitespace from both ends of a character list. -/
def trimChars (l : List Char) : List Char :=
  ((l.dropWhile isJsWs).reverse.dropWhile isJsWs).reverse

/-- JavaScript `String.prototype.trim`. -/
def jsTrim (s : String) : String := ⟨trimChars s.data⟩

/-- First index (from `i`) at which `needle` occurs in `hay`, scanning left to
right; `none` when absent.  Models `String.prototype.indexOf` (which returns
`-1` for absence). -/
def indexOfAux (needle : List Char) : List Char → Nat → Option Nat
  | [], i => if needle = [] then some i else none
  | c :: rest, i =>
    if needle.isPrefixOf (c :: rest) then some i else indexOfAux needle rest (i + 1)

/-- `s.indexOf(needle)` as an `Option`. -/
def strIndexOf (s needle : String) : Option Nat :=
  indexOfAux needle.data s.data 0

/-- `s.indexOf(needle, i0)` as an `Option`. -/
def strIndexOfFrom (s needle : String) (i0 : Nat) : Option Nat :=
  (indexOfAux needle.data (s.data.drop i0) 0).map (· + i0)

/-- Numeric value of a digit run, as `parseInt` on an all-digit string. -/
def digitsToNat (ds : List Char) : Nat :=
  ds.foldl (fun n c => n * 10 + (c.toNat - 48)) 0

/-- Count the occurrences of a character, as `(s.match(/c/g) || []).length`. -/
def countChar (c : Char) (l : List Char) : Nat :=
  (l.filter (· = c)).length

/-! ### A JSON value type and a model of `JSON.parse` -/

/-- A parsed JSON value.  Numbers are modelled as integers. -/
inductive Json where
  | null
  | bool (b : Bool)
  | num (n : Int)
  | str (s : String)
  | arr (elems : List Json)
  | obj (members : List (String × Json))

/-- JSON grammar whitespace (space, tab, line feed, carriage return). -/
def isJsonWs (c : Char) : Bool :=
  c = ' ' || c = '\t' || c = '\n' || c = '\r'

/-- Skip JSON grammar whitespace. -/
def skipJsonWs (l : List Char) : List Char := l.dropWhile isJsonWs

/-- Hexadecimal value of a character, for `\uXXXX` escapes. -/
def hexDigitVal (c : Char) : Option Nat :=
  if '0' ≤ c ∧ c ≤ '9' then some (c.toNat - 48)
  else if 'a' ≤ c ∧ c ≤ 'f' then some (c.toNat - 87)
  else if 'A' ≤ c ∧ c ≤ 'F' then some (c.toNat - 55)
  else none

/-- Decode a single-character JSON string escape (`\"`, `\\`, `\/`, `\b`,
`\f`, `\n`, `\r`, `\t`); anything else is a strict-grammar failure. -/
def jsonEscChar (c : Char) : Option Char :=
  if c = '"' then some '"'
  else if c = '\\' then some '\\'
  else if c = '/' then some '/'
  else if c = 'b' then some (Char.ofNat 8)
  else if c = 'f' then some (Char.ofNat 12)
  else if c = 'n' then some '\n'
  else if c = 'r' then some '\r'
  else if c = 't' then some '\t'
  else none

/-- Scan a JSON string body after the opening quote: returns the decoded
characters and the input remaining after the closing quote. -/
def scanJsonStr : List Char → Option (List Char × List Char)
  | [] => none
  | c :: rest =>
    if c = '"' then some ([], rest)
    else if c = '\\' then
      match rest with
      | [] => none
      | e :: rest2 =>
        if e = 'u' then
          match rest2 with
          | h1 :: h2 :: h3 :: h4 :: rest3 =>
            match hexDigitVal h1, hexDigitVal h2, hexDigitVal h3, hexDigitVal h4 with
            | some v1, some v2, some v3, some v4 =>
              (scanJsonStr rest3).map
                (fun p => (Char.ofNat (((v1 * 16 + v2) * 16 + v3) * 16 + v4) :: p.1, p.2))
            | _, _, _, _ => none
          | _ => none
        else
          match jsonEscChar e with
          | some ec => (scanJsonStr rest2).map (fun p => (ec :: p.1, p.2))
          | none => none
    else (scanJsonStr rest).map (fun p => (c :: p.1, p.2))

/-- Scan an unsigned JSON integer (rejecting a redundant leading zero and any
fraction/exponent, which this model does not represent). -/
def scanJsonNat (l : List Char) : Option (Nat × List Char) :=
  let ds := l.takeWhile Char.isDigit
  let rest := l.dropWhile Char.isDigit
  if ds = [] then none
  else if ds.length > 1 ∧ ds.head? = some '0' then none
  else
    match rest with
    | [] => some (digitsToNat ds, rest)
    | c :: _ =>
      if c = '.' ∨ c = 'e' ∨ c = 'E' then none else some (digitsToNat ds, rest)

/-- Scan a JSON number (integer, possibly negative). -/
def scanJsonNum (l : List Char) : Option (Int × List Char) :=
  match l with
  | '-' :: rest => (scanJsonNat rest).map (fun p => (-(p.1 : Int), p.2))
  | _ => (scanJsonNat l).map (fun p => ((p.1 : Int), p.2))

mutual

/-- Parse one JSON value (strict grammar), returning the remaining input. -/
def parseJsonValue : Nat → List Char → Option (Json × List Char)
  | 0, _ => none
  | fuel + 1, l =>
    match skipJsonWs l with
    | [] => none
    | c :: rest =>
      if c = 'n' then
        match rest with
        | 'u' :: 'l' :: 'l' :: r => some (.null, r)
        | _ => none
      else if c = 't' then
        match rest with
        | 'r' :: 'u' :: 'e' :: r => some (.bool true, r)
        | _ => none
      else if c = 'f' then
        match rest with
        | 'a' :: 'l' :: 's' :: 'e' :: r => some (.bool false, r)
        | _ => none
      else if c = '"' then
        (scanJsonStr rest).map (fun p => (.str ⟨p.1⟩, p.2))
      else if c = '[' then
        match skipJsonWs rest with
        | ']' :: r => some (.arr [], r)
        | _ => (parseJsonElems fuel rest).map (fun p => (.arr p.1, p.2))
      else if c = braceOpen then
        match skipJsonWs rest with
        | d :: r => if d = braceClose then some (.obj [], r)
                    else (parseJsonMembers fuel rest).map (fun p => (.obj p.1, p.2))
        | [] => none
      else if c = '-' ∨ c.isDigit then
        (scanJsonNum (c :: rest)).map (fun p => (.num p.1, p.2))
      else none

/-- Parse the elements of a non-empty JSON array up to its `]`. -/
def parseJsonElems : Nat → List Char → Option (List Json × List Char)
  | 0, _ => none
  | fuel + 1, l =>
    match parseJsonValue fuel l with
    | none => none
    | some (v, rem) =>
      match skipJsonWs rem with
      | ',' :: rem2 => (parseJsonElems fuel rem2).map (fun p => (v :: p.1, p.2))
      | ']' :: rem2 => some ([v], rem2)
      | _ => none

/-- Parse the members of a non-empty JSON object up to the closing brace. -/
def parseJsonMembers : Nat → List Char → Option (List (String × Json) × List Char)
  | 0, _ => none
  | fuel + 1, l =>
    match skipJsonWs l with
    | '"' :: rest =>
      match scanJsonStr rest with
      | none => none
      | some (key, rem) =>
        match skipJsonWs rem with
        | ':' :: rem2 =>
          match parseJsonValue fuel rem2 with
          | none => none
          | some (v, rem3) =>
            match skipJsonWs rem3 with
            | ',' :: rem4 =>
              (parseJsonMembers fuel rem4).map (fun p => ((⟨key⟩, v) :: p.1, p.2))
            | d :: rem4 =>
              if d = braceClose then some ([(⟨key⟩, v)], rem4) else none
            | [] => none
        | _ => none
    | _ => none

end

/-- `JSON.parse`: one value, with nothing but whitespace allowed after it;
`none` models the thrown `SyntaxError`. -/
def jsonParse (s : String) : Option Json :=
  match parseJsonValue (2 * s.data.length + 4) s.data with
  | some (v, rem) => if skipJsonWs rem = [] then some v else none
  | none => none

/-! ### The data model

`DeferredCitationData` mirrors the TypeScript interface of the same name in
`src/prompts/deferredCitationPrompt.ts` after alias normalization (the
canonical snake_case field names).  `Citation` mirrors the fields produced by
`deferredCitationToCitation` in `src/parsing/deferredCitationParser.ts`
(plus `url`, the alternate source identity named by the spec's data model). -/

/-- Timestamps of a raw deferred fragment (canonical snake_case names). -/
structure DCTimestamps where
  start_time : Option String
  end_time : Option String
deriving DecidableEq

/-- A normalized deferred-block fragment (output of `normalizeCitationData`). -/
structure DeferredCitationData where
  id : Option Int
  attachment_id : Option String
  reasoning : Option String
  full_phrase : Option String
  key_span : Option String
  page_key : Option String
  line_ids : Option (List Int)
  timestamps : Option DCTimestamps
deriving DecidableEq

/-- Timestamps of a converted `Citation` (camelCase names). -/
structure CTimestamps where
  startTime : Option String
  endTime : Option String
deriving DecidableEq

/-- The canonical `Citation` shape. -/
structure Citation where
  attachmentId : Option String
  url : Option String
  pageNumber : Option Int
  startPageKey : Option String
  fullPhrase : Option String
  keySpan : Option String
  citationNumber : Option Int
  lineIds : Option (List Int)
  reasoning : Option String
  timestamps : Option CTimestamps
deriving DecidableEq

/-- The record returned by `parseDeferredCitationResponse`.  `citationMap`
models the JavaScript `Map<number, DeferredCitationData>` as an insertion-
ordered association list. -/
structure ParsedDeferredResponse where
  visibleText : String
  citations : List DeferredCitationData
  citationMap : List (Int × DeferredCitationData)
  success : Bool
  error : Option String
deriving DecidableEq

/-- `Map.prototype.set` / object-key assignment: replace the value in place
when the key is present, otherwise append. -/
def assocSet {α β : Type} [DecidableEq α] (m : List (α × β)) (k : α) (v : β) :
    List (α × β) :=
  if m.any (fun kv => kv.1 = k) then
    m.map (fun kv => if kv.1 = k then (k, v) else kv)
  else m ++ [(k, v)]

/-- JavaScript truthiness of an optional string (`undefined`, `null` and the
empty string are falsy). -/
def truthyStr (o : Option String) : Bool :=
  match o with
  | none => false
  | some s => !(s = "")

/-! ### Field access on recovered JSON (JavaScript property semantics) -/

/-- Property read `j[name]`: on a JSON object the last binding wins (as in
`JSON.parse` with duplicate keys); on any other value the result is
`undefined` (modelled `none`).  Reading a property of `null` throws in
JavaScript; that case is handled by `normalizeCitationData` below. -/
def getField (j : Json) (name : String) : Option Json :=
  match j with
  | .obj kvs => kvs.foldl (fun acc kv => if kv.1 = name then some kv.2 else acc) none
  | _ => none

/-- The nullish-coalescing chain `j[n₁] ?? j[n₂] ?? …`: the first field that
is neither absent nor `null`. -/
def coalesceFields (j : Json) : List String → Option Json
  | [] => none
  | n :: ns =>
    match getField j n with
    | none => coalesceFields j ns
    | some .null => coalesceFields j ns
    | some v => some v

/-- Typed read of a string-valued field (the declared TypeScript type).  A
value of any other JSON type is treated as absent. -/
def asJsonStr (o : Option Json) : Option String :=
  match o with
  | some (.str s) => some s
  | _ => none

/-- Typed read of a number-valued field. -/
def asJsonInt (o : Option Json) : Option Int :=
  match o with
  | some (.num n) => some n
  | _ => none

/-- Typed read of a `number[]`-valued field; a non-array or an array with a
non-number element is treated as absent. -/
def asJsonIntList (o : Option Json) : Option (List Int) :=
  match o with
  | some (.arr xs) =>
    let rec collect : List Json → Option (List Int)
      | [] => some []
      | .num n :: rest => (collect rest).map (n :: ·)
      | _ => none
    collect xs
  | _ => none

/-- `normalizeCitationData` from `deferredCitationParser.ts`: resolves the
snake_case/camelCase aliases onto the canonical names.  The source reads
`raw.id`, `raw.attachment_id ?? raw.attachmentId`, …; when the recovered
element is JSON `null` this very first property read throws a `TypeError`
(`Cannot read properties of null`), modelled as `none`. -/
def normalizeCitationData (raw : Json) : Option DeferredCitationData :=
  match raw with
  | .null => none
  | _ =>
    some
      { id := asJsonInt (getField raw "id")
        attachment_id := asJsonStr (coalesceFields raw ["attachment_id", "attachmentId"])
        reasoning := asJsonStr (getField raw "reasoning")
        full_phrase := asJsonStr (coalesceFields raw ["full_phrase", "fullPhrase"])
        key_span := asJsonStr (coalesceFields raw ["key_span", "keySpan"])
        page_key :=
          asJsonStr (coalesceFields raw
            ["page_key", "pageKey", "start_page_key", "startPageKey"])
        line_ids := asJsonIntList (coalesceFields raw ["line_ids", "lineIds"])
        timestamps :=
          match getField raw "timestamps" with
          | some (.obj kvs) =>
            some
              { start_time :=
                  asJsonStr (coalesceFields (.obj kvs) ["start_time", "startTime"])
                end_time :=
                  asJsonStr (coalesceFields (.obj kvs) ["end_time", "endTime"]) }
          | _ => none }

/-- Normalize every recovered element in order; the first `null` element
aborts the whole call with the modelled `TypeError` (as `Array.prototype.map`
does when the callback throws). -/
def normalizeAll : List Json → Option (List DeferredCitationData)
  | [] => some []
  | j :: rest =>
    match normalizeCitationData j with
    | none => none
    | some d =>
      match normalizeAll rest with
      | none => none
      | some ds => some (d :: ds)

/-! ### `repairJson` -/

/-- The `^(three backticks)(?:json)?\s*` strip: if the string starts with a
code fence, drop it, an optional case-insensitive `json` tag, and the
following whitespace run. -/
def stripFenceStart (l : List Char) : List Char :=
  match l with
  | b1 :: b2 :: b3 :: rest =>
    if b1 = backtickChar ∧ b2 = backtickChar ∧ b3 = backtickChar then
      let rest2 :=
        match rest with
        | j :: s :: o :: n :: r =>
          if j.toLower = 'j' ∧ s.toLower = 's' ∧ o.toLower = 'o' ∧ n.toLower = 'n'
          then r else rest
        | _ => rest
      rest2.dropWhile isJsWs
    else l
  | _ => l

/-- The `\s*(three backticks)$` strip: if the string ends with a code fence,
drop it together with the whitespace run immediately before it. -/
def stripFenceEnd (l : List Char) : List Char :=
  if l.reverse.take 3 = [backtickChar, backtickChar, backtickChar] then
    (((l.reverse.drop 3).dropWhile isJsWs)).reverse
  else l

/-- The global replace of `,(\s*[\]\}])` by `$1`: drop every comma that is
followed (over whitespace) by a closing bracket or closing brace, continuing
the scan after each replaced closer as the `g` flag does. -/
def removeTrailingCommasAux : Nat → List Char → List Char
  | 0, l => l
  | fuel + 1, l =>
    match l with
    | [] => []
    | c :: rest =>
      if c = ',' then
        let ws := rest.takeWhile isJsWs
        match rest.dropWhile isJsWs with
        | d :: tail =>
          if d = ']' ∨ d = braceClose then
            ws ++ d :: removeTrailingCommasAux fuel tail
          else ',' :: removeTrailingCommasAux fuel rest
        | [] => ',' :: removeTrailingCommasAux fuel rest
      else c :: removeTrailingCommasAux fuel rest

/-- Entry point of the trailing-comma pass (fuel = input length suffices,
since every step consumes at least one character). -/
def removeTrailingCommas (l : List Char) : List Char :=
  removeTrailingCommasAux l.length l

/-- Append the missing `]`s when the string starts with `[`, does not end
with `]`, and has more opening than closing square brackets. -/
def fixBrackets (l : List Char) : List Char :=
  if l.head? = some '[' ∧ l.getLast? ≠ some ']' then
    let o := countChar '[' l
    let c := countChar ']' l
    if o > c then l ++ List.replicate (o - c) ']' else l
  else l

/-- Append the missing closing braces when the string contains an opening
brace and has more opening than closing braces. -/
def fixBraces (l : List Char) : List Char :=
  if l.contains braceOpen then
    let o := countChar braceOpen l
    let c := countChar braceClose l
    if o > c then l ++ List.replicate (o - c) braceClose else l
  else l

/-- `repairJson` from `deferredCitationParser.ts`: trim, strip a surrounding
code fence, remove trailing commas before closers, then append missing `]`s
and missing closing braces (in that order). -/
def repairJson (s : String) : String :=
  ⟨fixBraces (fixBrackets (removeTrailingCommas
      (stripFenceEnd (stripFenceStart (trimChars s.data)))))⟩

/-! ### The deferred-block splitter -/

/-- Start delimiter of the citation data block
(`src/prompts/deferredCitationPrompt.ts`). -/
def CITATION_DATA_START_DELIMITER : String := "<<<CITATION_DATA>>>"

/-- End delimiter of the citation data block. -/
def CITATION_DATA_END_DELIMITER : String := "<<<END_CITATION_DATA>>>"

/-- The map-building loop of `parseDeferredCitationResponse`:
`citationMap.set(citation.id, citation)` for each citation whose `id` is a
number. -/
def buildIdMap (cits : List DeferredCitationData) :
    List (Int × DeferredCitationData) :=
  cits.foldl
    (fun m c =>
      match c.id with
      | some i => assocSet m i c
      | none => m)
    []

/-- `parseDeferredCitationResponse` from `deferredCitationParser.ts`.
`none` models an uncaught exception escaping the function (which happens
exactly when a recovered element is JSON `null`: `normalizeCitationData`
then throws a `TypeError` outside any `try`).  All other paths return the
structured result of the source:
* empty input (falsy) → the fixed invalid-input failure record;
* no start delimiter → the whole trimmed input as `visibleText`, success;
* delimiter present → `visibleText` is the trimmed text before it, and the
  JSON block between the delimiters is parsed strictly, then (on failure)
  repaired and reparsed; if both fail, a failure record that still carries
  `visibleText`. -/
def parseDeferredCitationResponse (llmResponse : String) :
    Option ParsedDeferredResponse :=
  if llmResponse = "" then
    some
      { visibleText := ""
        citations := []
        citationMap := []
        success := false
        error := some "Invalid input: expected a string" }
  else
    match strIndexOf llmResponse CITATION_DATA_START_DELIMITER with
    | none =>
      some
        { visibleText := jsTrim llmResponse
          citations := []
          citationMap := []
          success := true
          error := none }
    | some startIndex =>
      let visibleText := jsTrim ⟨llmResponse.data.take startIndex⟩
      let jsonStartIndex := startIndex + CITATION_DATA_START_DELIMITER.data.length
      let jsonEndIndex :=
        match strIndexOfFrom llmResponse CITATION_DATA_END_DELIMITER startIndex with
        | some e => e
        | none => llmResponse.data.length
      let jsonString : String :=
        jsTrim ⟨(llmResponse.data.take jsonEndIndex).drop jsonStartIndex⟩
      if jsonString = "" then
        some
          { visibleText := visibleText
            citations := []
            citationMap := []
            success := true
            error := none }
      else
        let parsedOpt :=
          match jsonParse jsonString with
          | some v => some v
          | none => jsonParse (repairJson jsonString)
        match parsedOpt with
        | none =>
          some
            { visibleText := visibleText
              citations := []
              citationMap := []
              success := false
              error := some "Failed to parse citation JSON" }
        | some v =>
          let rawList :=
            match v with
            | .arr xs => xs
            | other => [other]
          match normalizeAll rawList with
          | none => none
          | some cits =>
            some
              { visibleText := visibleText
                citations := cits
                citationMap := buildIdMap cits
                success := true
                error := none }

/-! ### `deferredCitationToCitation` -/

/-- Attempt the regex `page[_a-zA-Z]*(\d+)_index_(\d+)` (case-insensitive)
at the head of the input: the literal `page`, a run of letters/underscores,
a non-empty digit run (group 1), the literal `_index_`, a non-empty digit
run (group 2).  The character classes are disjoint, so the greedy runs need
no backtracking. -/
def pageKeyMatchAt (l : List Char) : Option (List Char × List Char) :=
  match l with
  | p :: a :: g :: e :: rest =>
    if p.toLower = 'p' ∧ a.toLower = 'a' ∧ g.toLower = 'g' ∧ e.toLower = 'e' then
      let afterWord := rest.dropWhile (fun c => c = '_' ∨ c.isAlpha)
      let d1 := afterWord.takeWhile Char.isDigit
      let afterD1 := afterWord.dropWhile Char.isDigit
      if d1 = [] then none
      else
        match afterD1 with
        | u1 :: i :: n :: dd :: ee :: x :: u2 :: rest2 =>
          if u1 = '_' ∧ i.toLower = 'i' ∧ n.toLower = 'n' ∧ dd.toLower = 'd' ∧
              ee.toLower = 'e' ∧ x.toLower = 'x' ∧ u2 = '_' then
            let d2 := rest2.takeWhile Char.isDigit
            if d2 = [] then none else some (d1, d2)
          else none
        | _ => none
    else none
  | _ => none

/-- First match of the page-key pattern anywhere in the string (the regex
engine advances the start position one character at a time). -/
def findPageKeyMatch : List Char → Option (List Char × List Char)
  | [] => none
  | c :: rest =>
    match pageKeyMatchAt (c :: rest) with
    | some r => some r
    | none => findPageKeyMatch rest

/-- The `pk` computation of `deferredCitationToCitation`: run the page-key
regex when `data.page_key` is truthy (present and non-empty). -/
def pageKeyOf (data : DeferredCitationData) : Option (List Char × List Char) :=
  match data.page_key with
  | some s => if s = "" then none else findPageKeyMatch s.data
  | none => none

/-- `deferredCitationToCitation` from `deferredCitationParser.ts`: parses the
page key (when truthy), maps the timestamps, sorts `line_ids` ascending when
present and non-empty (a plain numeric sort — no deduplication), and fills
the `Citation` record, with `citationNumber ?? data.id`. -/
def deferredCitationToCitation (data : DeferredCitationData)
    (citationNumber : Option Int) : Citation :=
  let pk := pageKeyOf data
  { attachmentId := data.attachment_id
    url := none
    pageNumber := pk.map (fun m => (digitsToNat m.1 : Int))
    startPageKey :=
      pk.map (fun m => "page_number_" ++ (⟨m.1⟩ : String) ++ "_index_" ++ (⟨m.2⟩ : String))
    fullPhrase := data.full_phrase
    keySpan := data.key_span
    citationNumber := citationNumber.or data.id
    lineIds :=
      match data.line_ids with
      | some l => if l.length = 0 then none else some (List.insertionSort (· ≤ ·) l)
      | none => none
    reasoning := data.reasoning
    timestamps := data.timestamps.map (fun t => ⟨t.start_time, t.end_time⟩) }

/-! ### The key generator (not in the provided sources) -/

/-- The identity-bearing fields of a `Citation`: source identity
(`attachmentId`/`url`), full phrase, key span, and location
(`pageNumber`/`startPageKey` or `timestamps`). -/
def identityFields (c : Citation) :
    Option String × Option String × Option String × Option String ×
      Option Int × Option String × Option CTimestamps :=
  (c.attachmentId, c.url, c.fullPhrase, c.keySpan, c.pageNumber, c.startPageKey,
    c.timestamps)

/-- Length-prefixed rendering of an optional string, so that distinct field
tuples serialize to distinct strings. -/
def serializeOptStr (o : Option String) : String :=
  match o with
  | none => "_|"
  | some s => toString s.length ++ ":" ++ s ++ "|"

/-- Modelled from the spec: the canonical serialization feeding the key
generator (`generateCitationKey` lives in `src/react/utils.ts`, which is not
among the provided sources).  Per the spec it covers the identity-bearing
fields only. -/
def serializeIdentity
    (f : Option String × Option String × Option String × Option String ×
      Option Int × Option String × Option CTimestamps) : String :=
  serializeOptStr f.1 ++ serializeOptStr f.2.1 ++ serializeOptStr f.2.2.1 ++
    serializeOptStr f.2.2.2.1 ++
    (match f.2.2.2.2.1 with
     | none => "_|"
     | some n => toString n ++ "|") ++
    serializeOptStr f.2.2.2.2.2.1 ++
    (match f.2.2.2.2.2.2 with
     | none => "_"
     | some t => serializeOptStr t.startTime ++ serializeOptStr t.endTime)

/-- A deterministic 64-bit string digest (a polynomial rolling hash). -/
def stringDigest (s : String) : Nat :=
  s.data.foldl (fun h c => (h * 131 + c.toNat) % (2 ^ 64)) 5381

/-- Fixed-width hexadecimal rendering of a 64-bit value. -/
def toHex16 (n : Nat) : String :=
  let ds := Nat.toDigits 16 (n % (2 ^ 64))
  ⟨List.replicate (16 - ds.length) '0' ++ ds⟩

/-- Modelled from the spec: `generateCitationKey` (the source file
`src/react/utils.ts` is not among the provided sources).  The spec requires a
deterministic, fixed-length identifier derived from a canonical serialization
of the identity-bearing fields only — source identity, full phrase, key span,
location — and INTEGRATION.md documents it as a 16-character content hash. -/
def generateCitationKey (c : Citation) : String :=
  toHex16 (stringDigest (serializeIdentity (identityFields c)))

/-! ### The extraction entry point -/

/-- One iteration of the accumulation loop of
`getAllCitationsFromDeferredResponse`: convert the fragment, keep it only
when its `fullPhrase` is truthy, and store it under its generated key
(object-assignment semantics). -/
def citationStep (m : List (String × Citation)) (d : DeferredCitationData) :
    List (String × Citation) :=
  let c := deferredCitationToCitation d none
  if truthyStr c.fullPhrase then assocSet m (generateCitationKey c) c else m

/-- The accumulation loop of `getAllCitationsFromDeferredResponse`. -/
def citationEntries (l : List DeferredCitationData) : List (String × Citation) :=
  l.foldl citationStep []

/-- `getAllCitationsFromDeferredResponse` from `deferredCitationParser.ts`:
parse the response, return the empty map unless parsing succeeded with at
least one citation, and otherwise build the key-indexed citation map.
`none` again models the propagated exception. -/
def getAllCitationsFromDeferredResponse (llmResponse : String) :
    Option (List (String × Citation)) :=
  (parseDeferredCitationResponse llmResponse).map
    (fun parsed =>
      if parsed.success = false ∨ parsed.citations = [] then []
      else citationEntries parsed.citations)

/-! ### The status classifier (not in the provided sources) -/

/-- The four derived display flags. -/
structure CitationStatus where
  isVerified : Bool
  isPartialMatch : Bool
  isMiss : Bool
  isPending : Bool
deriving DecidableEq

/-- Modelled from the spec: `getCitationStatus` (the source file
`src/parsing/parseCitation.ts` is not among the provided sources; the fixed
lookup table is given in the spec's status taxonomy and in INTEGRATION.md's
Appendix A).  `none` stands for an absent/null/undefined raw status.  A token
outside the table maps to all-false flags (the table names no default row;
the spec's only all-false row is `skipped`). -/
def getCitationStatus (status : Option String) : CitationStatus :=
  match status with
  | none => ⟨false, false, false, true⟩
  | some s =>
    if s = "found" ∨ s = "found_phrase_missed_anchor_text" then
      ⟨true, false, false, false⟩
    else if s = "found_anchor_text_only" ∨ s = "found_on_other_page" ∨
        s = "found_on_other_line" ∨ s = "partial_text_found" ∨
        s = "first_word_found" then
      ⟨true, true, false, false⟩
    else if s = "not_found" then ⟨false, false, true, false⟩
    else if s = "pending" ∨ s = "loading" then ⟨false, false, false, true⟩
    else ⟨false, false, false, false⟩

/-! ### The line-range expansion of `normalizeCitation.ts`

The file `src/parsing/normalizeCitation.ts` is not among the provided
sources, but its dash-range expansion (lines 159-173) is quoted verbatim in
the repository's performance report: for every `(\d+)-(\d+)` match in the
`line_ids` string, when `start ≤ end` the whole closed range is pushed
element by element and joined with commas, otherwise only `start` is kept.
There is no cap of any kind. -/

/-- The loop body of the quoted replacement callback: the closed integer
range `[startNum, endNum]` when `startNum ≤ endNum`, else just `startNum`. -/
def expandDashRange (startNum endNum : Nat) : List Nat :=
  if startNum ≤ endNum then List.range' startNum (endNum - startNum + 1)
  else [startNum]

/-- `range.join(",")` from the quoted callback. -/
def joinCommaNums (l : List Nat) : List Char :=
  (String.intercalate "," (l.map toString)).data

/-- The global regex replacement `lineIdsStr.replace(/(\d+)-(\d+)/g, …)`:
scan for a digit run, a dash, and a second digit run, and splice in the
expansion; the scan continues after each replacement as the `g` flag does. -/
def expandLineRangesAux : Nat → List Char → List Char
  | 0, l => l
  | fuel + 1, l =>
    match l with
    | [] => []
    | c :: rest =>
      if c.isDigit then
        let d1 := (c :: rest).takeWhile Char.isDigit
        let after := (c :: rest).dropWhile Char.isDigit
        match after with
        | '-' :: r2 =>
          let d2 := r2.takeWhile Char.isDigit
          let r3 := r2.dropWhile Char.isDigit
          if d2 = [] then d1 ++ '-' :: expandLineRangesAux fuel r2
          else
            joinCommaNums (expandDashRange (digitsToNat d1) (digitsToNat d2)) ++
              expandLineRangesAux fuel r3
        | _ => d1 ++ expandLineRangesAux fuel after
      else c :: expandLineRangesAux fuel rest

/-- The quoted range expansion, as a function on the `line_ids` string. -/
def expandLineRanges (s : String) : String :=
  ⟨expandLineRangesAux s.data.length s.data⟩

/-! ### Concrete inputs used by the theorems below -/

/-- A citation map (`CitationRecord`): citation key → `Citation`. -/
abbrev CitationMap := List (String × Citation)

/-- The C7 scenario: visible text followed by a deferred block holding a
structurally valid array of two objects with a trailing comma before the
closing bracket. -/
def trailingCommaScenario : String :=
  "Text [1] and [2].\n\n<<<CITATION_DATA>>>\n[\x7b\"id\": 1, \"attachment_id\": \"a1\", \"full_phrase\": \"alpha growth\", \"key_span\": \"alpha\"\x7d, \x7b\"id\": 2, \"attachment_id\": \"a1\", \"full_phrase\": \"beta decline\", \"key_span\": \"beta\"\x7d,]\n<<<END_CITATION_DATA>>>"

/-- First fragment recovered from `trailingCommaScenario`. -/
def trailingCommaFrag1 : DeferredCitationData :=
  ⟨some 1, some "a1", none, some "alpha growth", some "alpha", none, none, none⟩

/-- Second fragment recovered from `trailingCommaScenario`. -/
def trailingCommaFrag2 : DeferredCitationData :=
  ⟨some 2, some "a1", none, some "beta decline", some "beta", none, none, none⟩

/-- A fragment whose `line_ids` array contains a duplicate entry. -/
def dupLineIdsData : DeferredCitationData :=
  ⟨some 1, some "a", none, some "x", none, none, some [10, 10], none⟩

/-- A fragment carrying the unsorted `line_ids` of the spec's scenario. -/
def unsortedLineIdsData : DeferredCitationData :=
  ⟨some 1, some "a", none, some "x", none, none, some [50, 30, 10, 40, 20], none⟩

/-- A fragment whose page key carries markdown-escape backslashes between
the words (`page\_number\_7_index_3`). -/
def backslashPageKeyData : DeferredCitationData :=
  ⟨some 1, some "a", none, some "x", none, some "page\\_number\\_7_index_3", none, none⟩

/-- A fragment with a well-formed camel-case page key. -/
def camelPageKeyData : DeferredCitationData :=
  ⟨some 1, some "a", none, some "x", none, some "pageNumber_5_index_2", none, none⟩

/-- A citation with every identity-bearing field populated. -/
def keyedCitationA : Citation :=
  ⟨some "att1", none, some 3, some "page_number_3_index_0", some "the phrase",
    some "span", some 1, some [1, 2], some "first reasoning", none⟩

/-- The same identity-bearing fields as `keyedCitationA`, but different
`citationNumber`, `lineIds` and `reasoning` (all non-identity fields). -/
def keyedCitationB : Citation :=
  ⟨some "att1", none, some 3, some "page_number_3_index_0", some "the phrase",
    some "span", some 9, none, none, none⟩

/-- The input whose deferred data block is the JSON literal `null`. -/
def nullBlockInput : String := "<<<CITATION_DATA>>>null<<<END_CITATION_DATA>>>"

/-! ### Shared lemmas -/

/-- The converted citation's `fullPhrase` is the fragment's normalized
`full_phrase`, unchanged. -/
theorem fullPhrase_deferredCitationToCitation (d : DeferredCitationData)
    (n : Option Int) : (deferredCitationToCitation d n).fullPhrase = d.full_phrase :=
  rfl

/-- A fragment whose `full_phrase` is falsy is a no-op for the accumulation
loop of the extraction entry point. -/
theorem citationStep_skip (m : List (String × Citation)) (d : DeferredCitationData)
    (h : truthyStr d.full_phrase = false) : citationStep m d = m := by
  have h' : truthyStr (deferredCitationToCitation d none).fullPhrase = false := h
  simp [citationStep, h']

/-- The accumulation loop ignores fragments with a falsy `full_phrase`,
whatever the accumulator. -/
theorem foldl_citationStep_filter (l : List DeferredCitationData) :
    ∀ m : List (String × Citation),
      l.foldl citationStep m =
        (l.filter (fun d => truthyStr d.full_phrase)).foldl citationStep m := by
  induction l with
  | nil => intro m; rfl
  | cons d rest ih =>
    intro m
    rcases h : truthyStr d.full_phrase with _ | _
    · rw [List.foldl_cons, List.filter_cons, h]
      simp only [citationStep_skip m d h]
      exact ih m
    · rw [List.foldl_cons, List.filter_cons, h]
      simp only [List.foldl_cons]
      exact ih (citationStep m d)

/-! ### The claims -/

/-- C1: the key generator is a pure function of the identity-bearing fields
(source identity, full phrase, key span, location): any two `Citation`s that
agree on those fields — however and in whatever order they were extracted,
and from either wire format — receive the same key. -/
theorem generateCitationKey_identity_determined (c₁ c₂ : Citation)
    (h : identityFields c₁ = identityFields c₂) :
    generateCitationKey c₁ = generateCitationKey c₂ := by
  unfold generateCitationKey
  rw [h]

/-- Witness for C1: two concrete citations that differ in `citationNumber`,
`lineIds` and `reasoning` but share every identity-bearing field receive the
same key. -/
theorem generateCitationKey_identity_determined_witness :
    generateCitationKey keyedCitationA = generateCitationKey keyedCitationB ∧
      keyedCitationA ≠ keyedCitationB :=
  ⟨generateCitationKey_identity_determined keyedCitationA keyedCitationB rfl,
    by decide⟩

/-- C2: the extraction entry point is deterministic as a two-run property:
two calls on the identical input string return identical results (the same
citation keys and the same field values; a modelled exception is likewise
identical across runs). -/
theorem getAllCitations_two_run_deterministic (s : String)
    (r₁ r₂ : Option CitationMap)
    (h₁ : getAllCitationsFromDeferredResponse s = r₁)
    (h₂ : getAllCitationsFromDeferredResponse s = r₂) : r₁ = r₂ :=
  h₁.symm.trans h₂

/-- Witness for C2: both runs on the empty input return the empty map. -/
theorem getAllCitations_two_run_deterministic_witness :
    (some [] : Option CitationMap) = some [] :=
  getAllCitations_two_run_deterministic "" (some []) (some []) rfl rfl

set_option maxRecDepth 100000 in
/-- C3: refuted on the code as stated.  When the deferred data block is the
JSON literal `null`, the strict parse succeeds, and `normalizeCitationData`
then reads `raw.id` on `null` — a `TypeError` thrown outside every `try`,
so `parseDeferredCitationResponse` raises (modelled `none`) and returns no
`visibleText` at all, contradicting "visibleText … must always be returned
… never by raising". -/
theorem parseDeferred_null_block_raises :
    parseDeferredCitationResponse nullBlockInput = none := by rfl

/-- C4 counterexample: a deferred fragment whose `line_ids` is `[10, 10]`
yields `lineIds = [10, 10]` — the converter only sorts, it does not
deduplicate, so the output is neither strictly ascending nor duplicate-free. -/
theorem lineIds_duplicates_survive :
    (deferredCitationToCitation dupLineIdsData none).lineIds = some [10, 10] ∧
      ¬ List.Sorted (· < ·) ([10, 10] : List Int) ∧
      ¬ ([10, 10] : List Int).Nodup := by
  refine ⟨rfl, ?_, by decide⟩
  intro h
  exact absurd (List.rel_of_sorted_cons h 10 (by simp)) (by decide)

/-- C4 (amended): for every deferred fragment with a non-empty `line_ids`
array, the converter returns its ascending sort — a permutation of the
input, sorted non-strictly, with duplicates preserved; when the input has no
duplicates the result is strictly ascending. -/
theorem lineIds_sorted_ascending (d : DeferredCitationData) (n : Option Int)
    (l : List Int) (hl : d.line_ids = some l) (hne : l ≠ []) :
    ∃ l', (deferredCitationToCitation d n).lineIds = some l' ∧
      List.Sorted (· ≤ ·) l' ∧ l'.Perm l ∧
      (l.Nodup → List.Sorted (· < ·) l') := by
  refine ⟨List.insertionSort (· ≤ ·) l, ?_, ?_, ?_, ?_⟩
  · unfold deferredCitationToCitation
    simp only [hl]
    rw [if_neg (by simpa [List.length_eq_zero] using hne)]
  · exact List.sorted_insertionSort _ l
  · exact List.perm_insertionSort _ l
  · intro hnd
    have hsort := List.sorted_insertionSort (· ≤ ·) l
    have hnd' : (List.insertionSort (· ≤ ·) l).Nodup :=
      ((List.perm_insertionSort (· ≤ ·) l).nodup_iff).mpr hnd
    exact (hsort.and hnd').imp (fun h => lt_of_le_of_ne h.1 h.2)

/-- Witness for C4: the spec's unsorted scenario `[50, 30, 10, 40, 20]`
(duplicate-free) is returned strictly ascending as `[10, 20, 30, 40, 50]`. -/
theorem lineIds_sorted_ascending_witness :
    (∃ l', (deferredCitationToCitation unsortedLineIdsData none).lineIds = some l' ∧
        List.Sorted (· ≤ ·) l' ∧ l'.Perm [50, 30, 10, 40, 20] ∧
        (([50, 30, 10, 40, 20] : List Int).Nodup → List.Sorted (· < ·) l')) ∧
      (deferredCitationToCitation unsortedLineIdsData none).lineIds =
        some [10, 20, 30, 40, 50] :=
  ⟨lineIds_sorted_ascending unsortedLineIdsData none [50, 30, 10, 40, 20] rfl
      (by decide),
    rfl⟩

/-- C5: the status classifier is a pure total function realizing the fixed
table — `partial_text_found` ↦ verified partial, `not_found` ↦ miss,
absent/`pending`/`loading` ↦ pending, `skipped` ↦ all flags false, the two
full-match tokens ↦ plain verified, the five partial tokens ↦ verified
partial — and for every token whatsoever, `isPartialMatch` implies
`isVerified`. -/
theorem getCitationStatus_table :
    (∀ t : Option String,
      (getCitationStatus t).isPartialMatch = true →
        (getCitationStatus t).isVerified = true) ∧
    getCitationStatus (some "partial_text_found") = ⟨true, true, false, false⟩ ∧
    getCitationStatus (some "not_found") = ⟨false, false, true, false⟩ ∧
    getCitationStatus none = ⟨false, false, false, true⟩ ∧
    getCitationStatus (some "pending") = ⟨false, false, false, true⟩ ∧
    getCitationStatus (some "loading") = ⟨false, false, false, true⟩ ∧
    getCitationStatus (some "skipped") = ⟨false, false, false, false⟩ ∧
    getCitationStatus (some "found") = ⟨true, false, false, false⟩ ∧
    getCitationStatus (some "found_phrase_missed_anchor_text") =
      ⟨true, false, false, false⟩ ∧
    getCitationStatus (some "found_anchor_text_only") = ⟨true, true, false, false⟩ ∧
    getCitationStatus (some "found_on_other_page") = ⟨true, true, false, false⟩ ∧
    getCitationStatus (some "found_on_other_line") = ⟨true, true, false, false⟩ ∧
    getCitationStatus (some "first_word_found") = ⟨true, true, false, false⟩ := by
  refine ⟨?_, rfl, rfl, rfl, rfl, rfl, rfl, rfl, rfl, rfl, rfl, rfl, rfl⟩
  intro t h
  cases t with
  | none => simp [getCitationStatus] at h
  | some s =>
    simp only [getCitationStatus] at h ⊢
    split_ifs at h ⊢
    simp_all

/-- Witness for C5: one partial token, checked through the implication. -/
theorem getCitationStatus_table_witness :
    (getCitationStatus (some "found_on_other_page")).isVerified = true :=
  getCitationStatus_table.1 (some "found_on_other_page") (by decide)

/-- C6: fragments whose normalized `full_phrase` is absent or empty
contribute nothing to the extraction result, and removing them leaves the
entries built from the remaining fragments unchanged. -/
theorem citationEntries_drops_missing_fullPhrase (l : List DeferredCitationData) :
    citationEntries l = citationEntries (l.filter (fun d => truthyStr d.full_phrase)) :=
  foldl_citationStep_filter l []

set_option maxRecDepth 200000 in
/-- C7: the repair pass is exactly the composition of trimming, stripping a
surrounding code fence, removing trailing commas before closers, and
appending the missing closing brackets and braces; a fenced block is
unwrapped, an unclosed object/array gets its closers appended, a strict
parse of a 2-object array with a trailing comma fails but its repair
parses, and the full scenario yields exactly 2 citations with the visible
text excluding the entire block. -/
theorem repairJson_passes_and_scenario :
    (∀ s : String,
      repairJson s = ⟨fixBraces (fixBrackets (removeTrailingCommas
        (stripFenceEnd (stripFenceStart (trimChars s.data))))) ⟩) ∧
    repairJson "```json\n[1, 2]\n```" = "[1, 2]" ∧
    repairJson "[\x7b\"a\": 1" = "[\x7b\"a\": 1]\x7d" ∧
    jsonParse "[1, 2,]" = none ∧
    jsonParse (repairJson "[1, 2,]") = some (.arr [.num 1, .num 2]) ∧
    parseDeferredCitationResponse trailingCommaScenario =
      some ⟨"Text [1] and [2].", [trailingCommaFrag1, trailingCommaFrag2],
        [(1, trailingCommaFrag1), (2, trailingCommaFrag2)], true, none⟩ :=
  ⟨fun _ => rfl, rfl, rfl, rfl, rfl, rfl⟩

/-- C8: refuted on the code as quoted in the repository's own performance
report: the dash-range expansion has no cap at all — `1-100000` expands to
the full 100,000-entry range (far beyond the claimed 1,000-entry cap)
instead of being rejected with `lineIds` absent. -/
theorem lineRange_expansion_uncapped :
    expandLineRanges "2-4" = "2,3,4" ∧
    expandLineRanges "1-3, 10-12, 20" = "1,2,3, 10,11,12, 20" ∧
    (expandDashRange 1 100000).length = 100000 ∧
    1000 < (expandDashRange 1 100000).length := by
  refine ⟨rfl, rfl, ?_, ?_⟩
  · rw [expandDashRange, if_pos (by norm_num), List.length_range']
  · rw [expandDashRange, if_pos (by norm_num), List.length_range']
    norm_num

/-- C9 counterexample: a page-key token with markdown-escape backslashes
between the words — of the claimed form up to escape artifacts — is NOT
extracted: the character class `[_a-zA-Z]` of the regex does not match a
backslash, so both `pageNumber` and `startPageKey` come back absent. -/
theorem pageKey_backslash_not_extracted :
    backslashPageKeyData.page_key = some "page\\_number\\_7_index_3" ∧
    (deferredCitationToCitation backslashPageKeyData none).pageNumber = none ∧
    (deferredCitationToCitation backslashPageKeyData none).startPageKey = none :=
  ⟨rfl, rfl, rfl⟩

/-- C9 (amended): for every fragment the page-key interpreter is total and
two-valued — either the token matches `page[_a-zA-Z]*(\d+)_index_(\d+)`
(case-insensitively; letter/underscore variations of the word part are
tolerated, backslash escape artifacts are not) and both `pageNumber` and the
canonicalized `startPageKey` are produced from the two digit groups, or both
are absent; a well-formed camel-case token is extracted. -/
theorem pageKey_extract_or_nothing (d : DeferredCitationData) :
    ((∃ m : List Char × List Char, pageKeyOf d = some m ∧
        (deferredCitationToCitation d none).pageNumber =
          some (digitsToNat m.1 : Int) ∧
        (deferredCitationToCitation d none).startPageKey =
          some ("page_number_" ++ (⟨m.1⟩ : String) ++ "_index_" ++
            (⟨m.2⟩ : String))) ∨
      ((deferredCitationToCitation d none).pageNumber = none ∧
        (deferredCitationToCitation d none).startPageKey = none)) ∧
    (deferredCitationToCitation camelPageKeyData none).pageNumber = some 5 ∧
    (deferredCitationToCitation camelPageKeyData none).startPageKey =
      some "page_number_5_index_2" := by
  refine ⟨?_, rfl, rfl⟩
  cases hpk : pageKeyOf d with
  | none =>
    right
    constructor <;> (unfold deferredCitationToCitation; simp [hpk])
  | some m =>
    left
    refine ⟨m, rfl, ?_, ?_⟩ <;> (unfold deferredCitationToCitation; simp [hpk])

/-- C10: the empty input is reported as the fixed invalid-input parse
failure — empty `visibleText`, no citations, `success = false`, the exact
error string — and the extraction entry point consequently returns the
empty citation map. -/
theorem parseDeferred_empty_input :
    parseDeferredCitationResponse "" =
      some ⟨"", [], [], false, some "Invalid input: expected a string"⟩ ∧
    getAllCitationsFromDeferredResponse "" = some [] :=
  ⟨rfl, rfl⟩
